import Mathlib

/-!
Verification of the `game_clock` crate (`src/lib.rs`): a frame-timing clock
(`Time`) for game loops, with a fixed-timestep accumulator and a time-scale
multiplier.

Embedding conventions:
* `std::time::Duration` values are modelled as natural numbers of nanoseconds.
  `Duration` is an unsigned 96-bit-ish quantity (u64 seconds + u32 nanos);
  arithmetic overflow of `Duration`/`u64` is out of scope of the design
  (spec section 7: durations "not checked for overflow"), so `Nat` is used.
* The `f32` field `time_scale` is modelled by `F32`: NaN, the two infinities,
  and finite values idealised as rationals.  IEEE comparison semantics
  (NaN compares false under `>=`, NaN is unequal to everything) are encoded
  in the comparison functions.  `Duration::mul_f32` (which converts the
  duration to `f32` seconds, multiplies, and converts back with rounding to
  the nearest nanosecond) is idealised as exact rational multiplication of
  the nanosecond count rounded to the nearest integer; no claim below
  depends on f32 rounding error.
* A Rust panic (`assert!` failure in `set_time_scale`) is modelled by
  `Except.error s` where `s` is the state at the moment of the panic; since
  both asserts precede the field write, that state is the receiver unchanged.
-/

namespace GameClock

/-- Model of an `f32` scalar: NaN, the infinities, or a finite value
idealised as a rational number. -/
inductive F32 where
  | nan : F32
  | posInf : F32
  | negInf : F32
  | finite (q : ℚ) : F32
deriving DecidableEq

/-- IEEE semantics of the Rust comparison `x >= 0.0` on an `f32`:
false for NaN (NaN compares false with everything), true for `+inf`,
false for `-inf`, and the ordinary order on finite values. -/
def F32.ge0 : F32 → Bool
  | .nan => false
  | .posInf => true
  | .negInf => false
  | .finite q => decide (0 ≤ q)

/-- IEEE semantics of the Rust comparison `x == f32::INFINITY`:
true exactly for `+inf` (NaN is unequal to everything, including itself). -/
def F32.isPosInf : F32 → Bool
  | .posInf => true
  | _ => false

/-- A scale value that is `>= 0`, finite and not NaN. -/
def F32.validB : F32 → Bool
  | .finite q => decide (0 ≤ q)
  | _ => false

/-- `Duration::mul_f32`: the duration (nanoseconds `n`) is multiplied by the
scalar; idealised as exact rational multiplication rounded to the nearest
nanosecond.  The integer formula `(2*n*num + den) / (2*den)` (Euclidean
division, denominator positive) is exactly `round(n * q)`, see
`mulF32_eq_round`; it is written this way so that it evaluates by kernel
reduction.  On NaN / infinite scalars the Rust implementation panics
(`Duration::from_secs_f32` rejects them); those cases never arise from a
reachable `time_scale` and are mapped to `0` here. -/
def mulF32 (n : ℕ) (s : F32) : ℕ :=
  match s with
  | .finite q => ((2 * (n : ℤ) * q.num + (q.den : ℤ)) / (2 * (q.den : ℤ))).toNat
  | _ => 0

/-- The `Time` struct of `src/lib.rs`, fields in source order; durations in
nanoseconds. -/
@[ext]
structure Time where
  delta_time : ℕ
  delta_real_time : ℕ
  fixed_time : ℕ
  frame_number : ℕ
  absolute_real_time : ℕ
  absolute_time : ℕ
  time_scale : F32
  fixed_time_accumulator : ℕ
deriving DecidableEq

namespace Time

/-- `impl Default for Time`: all durations zero, `fixed_time` is
`Duration::new(0, 16_666_666)`, frame 0, scale `1.0`. -/
def default : Time where
  delta_time := 0
  delta_real_time := 0
  fixed_time := 16666666
  frame_number := 0
  absolute_real_time := 0
  absolute_time := 0
  time_scale := .finite 1
  fixed_time_accumulator := 0

/-- `Time::advance_frame`.  The source mutates the receiver field by field;
`delta_time` is written first and then read when updating `absolute_time`,
so the record update below uses the freshly computed values. -/
def advance_frame (t : Time) (time_diff : ℕ) : Time :=
  let d := mulF32 time_diff t.time_scale
  { t with
    delta_time := d
    delta_real_time := time_diff
    frame_number := t.frame_number + 1
    absolute_time := t.absolute_time + d
    absolute_real_time := t.absolute_real_time + time_diff
    fixed_time_accumulator := t.fixed_time_accumulator + time_diff }

/-- `Time::set_fixed_time`: unconditional replacement, no validation. -/
def set_fixed_time (t : Time) (time : ℕ) : Time :=
  { t with fixed_time := time }

/-- `Time::set_time_scale`:
`assert!(multiplier >= 0.0); assert!(multiplier != f32::INFINITY);`
then the write.  A failed assert is a panic, modelled as `Except.error`
carrying the state at the panic point (no field written yet). -/
def set_time_scale (t : Time) (multiplier : F32) : Except Time Time :=
  if F32.ge0 multiplier = false then .error t
  else if F32.isPosInf multiplier = true then .error t
  else .ok { t with time_scale := multiplier }

/-- `Time::step_fixed_update`: returns the bool result paired with the
updated state. -/
def step_fixed_update (t : Time) : Bool × Time :=
  if t.fixed_time ≤ t.fixed_time_accumulator then
    (true, { t with
      fixed_time_accumulator := t.fixed_time_accumulator - t.fixed_time })
  else
    (false, t)

/-- The caller-side draining loop `while time.step_fixed_update() { n += 1 }`:
returns the number of `true` returns and the final state.  The guard
`0 < t.fixed_time` reflects that the loop does not terminate when
`fixed_time = 0` (the hazard of claim C9); with `0 < fixed_time` this is
exactly the loop. -/
def drain (t : Time) : ℕ × Time :=
  if h : 0 < t.fixed_time ∧ t.fixed_time ≤ t.fixed_time_accumulator then
    let r := drain { t with
      fixed_time_accumulator := t.fixed_time_accumulator - t.fixed_time }
    (r.1 + 1, r.2)
  else
    (0, t)
termination_by t.fixed_time_accumulator
decreasing_by
  exact Nat.sub_lt (Nat.lt_of_lt_of_le h.1 h.2) h.1

end Time

/-- One whole frame per list element: `advance_frame dᵢ` followed by draining
`step_fixed_update` until it returns false; returns the total number of
`true` returns together with the final state. -/
def processFrames : List ℕ → Time → ℕ × Time
  | [], t => (0, t)
  | d :: ds, t =>
    let r₁ := (t.advance_frame d).drain
    let r₂ := processFrames ds r₁.2
    (r₁.1 + r₂.1, r₂.2)

/-- The four mutating operations of the API, for reachability statements. -/
inductive Op where
  | advance_frame (d : ℕ) : Op
  | set_fixed_time (d : ℕ) : Op
  | set_time_scale (s : F32) : Op
  | step_fixed_update : Op
deriving DecidableEq

/-- Apply one operation; `none` when `set_time_scale` panics. -/
def applyOp (t : Time) : Op → Option Time
  | .advance_frame d => some (t.advance_frame d)
  | .set_fixed_time d => some (t.set_fixed_time d)
  | .set_time_scale s => (t.set_time_scale s).toOption
  | .step_fixed_update => some t.step_fixed_update.2

/-- Run a list of operations from a state; `none` as soon as one panics. -/
def runOps : List Op → Time → Option Time
  | [], t => some t
  | op :: rest, t =>
    match applyOp t op with
    | some t' => runOps rest t'
    | none => none

/-- Helper for `noScaleSinceAdvance`, scanning the trace from its end
(the argument is the reversed trace): true when no `set_time_scale`
operation occurs before the first `advance_frame` is met. -/
def noScaleSinceAdvanceRev : List Op → Bool
  | [] => true
  | op :: rest =>
    match op with
    | .set_time_scale _ => false
    | .advance_frame _ => true
    | _ => noScaleSinceAdvanceRev rest

/-- No successful `set_time_scale` occurs after the last `advance_frame` of
the trace (or anywhere in it, when it contains no `advance_frame`). -/
def noScaleSinceAdvance (ops : List Op) : Bool :=
  noScaleSinceAdvanceRev ops.reverse

/-- The state reached from default by `advance_frame 2` then
`set_time_scale 2.0`: the concrete counterexample state for the claimed
invariant `delta_time = delta_real_time * time_scale`. -/
def tC7 : Time where
  delta_time := 2
  delta_real_time := 2
  fixed_time := 16666666
  frame_number := 1
  absolute_real_time := 2
  absolute_time := 2
  time_scale := .finite 2
  fixed_time_accumulator := 2

/-- The integer formula in `mulF32` computes exactly `round(n * q)`:
rounding the idealised product to the nearest nanosecond. -/
theorem mulF32_eq_round (n : ℕ) (q : ℚ) :
    mulF32 n (F32.finite q) = (round ((n : ℚ) * q)).toNat := by
  have hden : ((q.den : ℚ)) ≠ 0 := Nat.cast_ne_zero.mpr q.den_nz
  have hnum : (q.num : ℚ) = q * (q.den : ℚ) := by
    rw [← div_eq_iff hden]
    exact Rat.num_div_den q
  have h2den : ((2 * q.den : ℕ) : ℚ) ≠ 0 := by
    push_cast
    simp [hden]
  have key : ((2 * (n : ℤ) * q.num + (q.den : ℤ) : ℤ) : ℚ) /
      ((2 * q.den : ℕ) : ℚ) = (n : ℚ) * q + 1 / 2 := by
    rw [div_eq_iff h2den]
    push_cast
    rw [hnum]
    ring
  have h2 : round ((n : ℚ) * q) =
      (2 * (n : ℤ) * q.num + (q.den : ℤ)) / ((2 * q.den : ℕ) : ℤ) := by
    rw [round_eq, ← key, Rat.floor_intCast_div_natCast]
  rw [h2]
  simp only [mulF32]
  norm_num

/-- C1: `advance_frame` sets `delta_real_time := time_diff`, sets
`delta_time := time_diff * time_scale` (the duration-by-f32 multiply),
increments `frame_number` by 1, adds the new `delta_time` to
`absolute_time`, adds `time_diff` to `absolute_real_time` and the unscaled
`time_diff` to `fixed_time_accumulator`; `fixed_time` and `time_scale` are
untouched, and the operation is total (cannot fail). -/
theorem advance_frame_spec (t : Time) (time_diff : ℕ) :
    t.advance_frame time_diff =
      { delta_time := mulF32 time_diff t.time_scale
        delta_real_time := time_diff
        fixed_time := t.fixed_time
        frame_number := t.frame_number + 1
        absolute_real_time := t.absolute_real_time + time_diff
        absolute_time := t.absolute_time + mulF32 time_diff t.time_scale
        time_scale := t.time_scale
        fixed_time_accumulator := t.fixed_time_accumulator + time_diff } := rfl

/-- C2: `step_fixed_update` returns true and subtracts exactly `fixed_time`
from the accumulator when `accumulator ≥ fixed_time` (ties included, since
the comparison is `>=`), leaving every other field unchanged; otherwise it
returns false and the whole state is unchanged. -/
theorem step_fixed_update_spec (t : Time) :
    (t.fixed_time ≤ t.fixed_time_accumulator →
      t.step_fixed_update = (true, { t with
        fixed_time_accumulator := t.fixed_time_accumulator - t.fixed_time })) ∧
    (t.fixed_time_accumulator < t.fixed_time →
      t.step_fixed_update = (false, t)) := by
  constructor
  · intro h
    simp [Time.step_fixed_update, h]
  · intro h
    simp [Time.step_fixed_update, Nat.not_le.mpr h, Nat.not_le_of_lt h]

theorem step_fixed_update_spec_witness :
    ((Time.default.set_fixed_time 5).advance_frame 5).step_fixed_update =
      (true, { ((Time.default.set_fixed_time 5).advance_frame 5) with
        fixed_time_accumulator := 0 }) ∧
    Time.default.step_fixed_update = (false, Time.default) := by
  refine ⟨?_, ?_⟩
  · have h := (step_fixed_update_spec
      ((Time.default.set_fixed_time 5).advance_frame 5)).1 (by decide)
    simpa using h
  · exact (step_fixed_update_spec Time.default).2 (by decide)

/-- C4: default construction yields zero deltas and absolutes, `fixed_time`
of 16,666,666 ns, zero accumulator, frame number 0 and `time_scale` 1.0. -/
theorem default_spec :
    Time.default.delta_time = 0 ∧
    Time.default.delta_real_time = 0 ∧
    Time.default.fixed_time = 16666666 ∧
    Time.default.fixed_time_accumulator = 0 ∧
    Time.default.frame_number = 0 ∧
    Time.default.absolute_time = 0 ∧
    Time.default.absolute_real_time = 0 ∧
    Time.default.time_scale = F32.finite 1 := by
  refine ⟨rfl, rfl, rfl, rfl, rfl, rfl, rfl, rfl⟩

/-- C9: with `fixed_time = 0` every call to `step_fixed_update` returns true
(the accumulator is a non-negative quantity, hence always `≥ 0`) and leaves
the state unchanged, so a caller looping until `false` never terminates. -/
theorem step_fixed_update_zero_interval (t : Time) (h : t.fixed_time = 0) :
    t.step_fixed_update.1 = true ∧ t.step_fixed_update.2 = t := by
  obtain ⟨a, b, c, d, e, f, g, i⟩ := t
  simp only at h
  subst h
  constructor <;> simp [Time.step_fixed_update]

/-- C5: `set_time_scale` panics (asserts) on NaN, on `+∞`, on `-∞` and on
every negative finite multiplier, and for every finite multiplier `≥ 0` it
succeeds and writes exactly `time_scale`. -/
theorem set_time_scale_spec (t : Time) (q : ℚ) :
    t.set_time_scale F32.nan = Except.error t ∧
    t.set_time_scale F32.posInf = Except.error t ∧
    t.set_time_scale F32.negInf = Except.error t ∧
    (q < 0 → t.set_time_scale (F32.finite q) = Except.error t) ∧
    (0 ≤ q → t.set_time_scale (F32.finite q) =
      Except.ok { t with time_scale := F32.finite q }) := by
  refine ⟨rfl, rfl, rfl, ?_, ?_⟩
  · intro h
    simp [Time.set_time_scale, F32.ge0, F32.isPosInf, not_le.mpr h]
  · intro h
    simp [Time.set_time_scale, F32.ge0, F32.isPosInf, h]

theorem set_time_scale_spec_witness :
    Time.default.set_time_scale F32.nan = Except.error Time.default ∧
    Time.default.set_time_scale (F32.finite (-1)) = Except.error Time.default ∧
    Time.default.set_time_scale (F32.finite 2) =
      Except.ok { Time.default with time_scale := F32.finite 2 } :=
  ⟨(set_time_scale_spec Time.default (-1)).1,
   (set_time_scale_spec Time.default (-1)).2.2.2.1 (by norm_num),
   (set_time_scale_spec Time.default 2).2.2.2.2 (by norm_num)⟩

/-- C10: when the multiplier is invalid (negative, NaN or infinite) the
panic happens before the field write: the state carried out of the failing
call is exactly the receiver, every field included. -/
theorem set_time_scale_atomic (t : Time) (m : F32)
    (h : F32.validB m = false) :
    t.set_time_scale m = Except.error t := by
  cases m <;> simp_all [Time.set_time_scale, F32.ge0, F32.isPosInf, F32.validB]

theorem set_time_scale_atomic_witness :
    Time.default.set_time_scale F32.nan = Except.error Time.default :=
  set_time_scale_atomic Time.default F32.nan rfl

/-- C8: `frame_number` is 0 at construction, `advance_frame` increments it
by exactly 1, and `step_fixed_update`, `set_fixed_time` and a successful
`set_time_scale` leave it unchanged. -/
theorem frame_number_spec :
    Time.default.frame_number = 0 ∧
    (∀ (t : Time) (d : ℕ),
      (t.advance_frame d).frame_number = t.frame_number + 1) ∧
    (∀ t : Time, t.step_fixed_update.2.frame_number = t.frame_number) ∧
    (∀ (t : Time) (d : ℕ),
      (t.set_fixed_time d).frame_number = t.frame_number) ∧
    (∀ (t t' : Time) (m : F32),
      t.set_time_scale m = Except.ok t' → t'.frame_number = t.frame_number) := by
  refine ⟨rfl, fun t d => rfl, ?_, fun t d => rfl, ?_⟩
  · intro t
    unfold Time.step_fixed_update
    split <;> rfl
  · intro t t' m h
    unfold Time.set_time_scale at h
    split_ifs at h
    cases h
    rfl

theorem frame_number_spec_witness :
    ({ Time.default with time_scale := F32.finite 2 } : Time).frame_number =
      Time.default.frame_number :=
  frame_number_spec.2.2.2.2 Time.default
    { Time.default with time_scale := F32.finite 2 } (F32.finite 2) (by rfl)

theorem step_fixed_update_zero_interval_witness :
    (Time.default.set_fixed_time 0).step_fixed_update.1 = true ∧
    (Time.default.set_fixed_time 0).step_fixed_update.2 =
      Time.default.set_fixed_time 0 :=
  step_fixed_update_zero_interval (Time.default.set_fixed_time 0) rfl

/-- Draining with a positive interval `F` performs `accumulator / F` steps
and leaves `accumulator % F` in the accumulator, touching no other field. -/
theorem drain_spec : ∀ t : Time, 0 < t.fixed_time →
    t.drain = (t.fixed_time_accumulator / t.fixed_time,
      { t with fixed_time_accumulator :=
          t.fixed_time_accumulator % t.fixed_time }) := by
  intro t
  induction t using Time.drain.induct with
  | case1 t h ih =>
    intro hF
    have hstep := ih hF
    rw [Time.drain, dif_pos h]
    rw [show (Time.drain { t with fixed_time_accumulator :=
        t.fixed_time_accumulator - t.fixed_time }) =
        ((t.fixed_time_accumulator - t.fixed_time) / t.fixed_time,
         { t with fixed_time_accumulator :=
            (t.fixed_time_accumulator - t.fixed_time) % t.fixed_time })
      from hstep]
    refine Prod.ext ?_ ?_
    · exact (Nat.div_eq_sub_div hF h.2).symm
    · show ({ t with fixed_time_accumulator :=
          (t.fixed_time_accumulator - t.fixed_time) % t.fixed_time } : Time) =
        { t with fixed_time_accumulator :=
          t.fixed_time_accumulator % t.fixed_time }
      rw [Nat.mod_eq_sub_mod h.2]
  | case2 t h =>
    intro hF
    have hlt : t.fixed_time_accumulator < t.fixed_time := by
      rcases Nat.lt_or_ge t.fixed_time_accumulator t.fixed_time with h' | h'
      · exact h'
      · exact absurd ⟨hF, h'⟩ h
    rw [Time.drain, dif_neg h, Nat.div_eq_of_lt hlt, Nat.mod_eq_of_lt hlt]

/-- Running frames `ds` from a drained state (`accumulator < fixed_time`)
yields `(accumulator + sum ds) / fixed_time` fixed steps in total and
leaves `(accumulator + sum ds) % fixed_time` in the accumulator, with
`fixed_time` unchanged throughout. -/
theorem processFrames_spec : ∀ (ds : List ℕ) (t : Time), 0 < t.fixed_time →
    t.fixed_time_accumulator < t.fixed_time →
    (processFrames ds t).1 =
      (t.fixed_time_accumulator + ds.sum) / t.fixed_time ∧
    (processFrames ds t).2.fixed_time = t.fixed_time ∧
    (processFrames ds t).2.fixed_time_accumulator =
      (t.fixed_time_accumulator + ds.sum) % t.fixed_time := by
  intro ds
  induction ds with
  | nil =>
    intro t hF hlt
    refine ⟨?_, rfl, ?_⟩
    · simp [processFrames, Nat.div_eq_of_lt hlt]
    · simp [processFrames, Nat.mod_eq_of_lt hlt]
  | cons d ds ih =>
    intro t hF hlt
    have hdrain := drain_spec (t.advance_frame d) hF
    have hadv₁ : (t.advance_frame d).fixed_time_accumulator =
        t.fixed_time_accumulator + d := rfl
    have hadv₂ : (t.advance_frame d).fixed_time = t.fixed_time := rfl
    have hmodlt : (t.fixed_time_accumulator + d) % t.fixed_time <
        t.fixed_time := Nat.mod_lt _ hF
    have hih := ih ((t.advance_frame d).drain.2)
      (by rw [hdrain]; exact hF) (by rw [hdrain]; exact hmodlt)
    have hdm := Nat.div_add_mod (t.fixed_time_accumulator + d) t.fixed_time
    have key : ∀ s : ℕ,
        (t.fixed_time_accumulator + d) / t.fixed_time +
            ((t.fixed_time_accumulator + d) % t.fixed_time + s) /
              t.fixed_time =
          (t.fixed_time_accumulator + d + s) / t.fixed_time ∧
        ((t.fixed_time_accumulator + d) % t.fixed_time + s) % t.fixed_time =
          (t.fixed_time_accumulator + d + s) % t.fixed_time := by
      intro s
      have h1 : t.fixed_time_accumulator + d + s =
          t.fixed_time * ((t.fixed_time_accumulator + d) / t.fixed_time) +
            ((t.fixed_time_accumulator + d) % t.fixed_time + s) := by omega
      rw [h1, Nat.mul_add_div hF, Nat.mul_add_mod]
      omega
    refine ⟨?_, ?_, ?_⟩
    · show (t.advance_frame d).drain.1 +
        (processFrames ds ((t.advance_frame d).drain.2)).1 = _
      rw [hih.1]
      simp only [hdrain, hadv₁, hadv₂, List.sum_cons, ← Nat.add_assoc]
      exact (key ds.sum).1
    · show (processFrames ds ((t.advance_frame d).drain.2)).2.fixed_time = _
      rw [hih.2.1]
      simp only [hdrain, hadv₂]
    · show (processFrames ds
        ((t.advance_frame d).drain.2)).2.fixed_time_accumulator = _
      rw [hih.2.2]
      simp only [hdrain, hadv₁, hadv₂, List.sum_cons, ← Nat.add_assoc]
      exact (key ds.sum).2

/-- C3: with a positive interval `F`, starting from a state with
`fixed_time = F` and an empty accumulator, running frames with real deltas
`d₁..dₙ` (each `advance_frame` followed by draining `step_fixed_update`)
produces exactly `⌊(d₁+…+dₙ)/F⌋` true returns in total, and the
accumulator after each frame's draining lies in `[0, F)` (it is a natural
number, hence `≥ 0`). -/
theorem fixed_step_count_law (F : ℕ) (hF : 0 < F) (ds : List ℕ) (t : Time)
    (hft : t.fixed_time = F) (hacc : t.fixed_time_accumulator = 0) :
    (processFrames ds t).1 = ds.sum / F ∧
    (∀ k : ℕ,
      (processFrames (ds.take k) t).2.fixed_time_accumulator < F) := by
  constructor
  · have h := (processFrames_spec ds t (by omega) (by omega)).1
    rw [h, hacc, hft, Nat.zero_add]
  · intro k
    have h := (processFrames_spec (ds.take k) t (by omega) (by omega)).2.2
    rw [h, hft]
    exact Nat.mod_lt _ hF

theorem fixed_step_count_law_witness :
    (processFrames [2, 4, 1] (Time.default.set_fixed_time 3)).1 =
      [2, 4, 1].sum / 3 ∧
    (processFrames ([2, 4, 1].take 2)
      (Time.default.set_fixed_time 3)).2.fixed_time_accumulator < 3 :=
  ⟨(fixed_step_count_law 3 (by decide) [2, 4, 1]
      (Time.default.set_fixed_time 3) rfl rfl).1,
   (fixed_step_count_law 3 (by decide) [2, 4, 1]
      (Time.default.set_fixed_time 3) rfl rfl).2 2⟩

/-- One successful operation preserves validity of `time_scale`. -/
theorem applyOp_valid (t t' : Time) (op : Op)
    (hv : F32.validB t.time_scale = true) (h : applyOp t op = some t') :
    F32.validB t'.time_scale = true := by
  cases op with
  | advance_frame d =>
    cases h
    exact hv
  | set_fixed_time d =>
    cases h
    exact hv
  | set_time_scale s =>
    simp only [applyOp, Time.set_time_scale] at h
    split_ifs at h with h₁ h₂
    · simp [Except.toOption] at h
    · simp [Except.toOption] at h
    · simp only [Except.toOption, Option.some.injEq] at h
      subst h
      cases s with
      | nan => exact absurd rfl h₁
      | posInf => exact absurd rfl h₂
      | negInf => exact absurd rfl h₁
      | finite q =>
        simp only [Bool.not_eq_false, decide_eq_true_eq, F32.ge0] at h₁
        simpa [F32.validB] using h₁
  | step_fixed_update =>
    cases h
    unfold Time.step_fixed_update
    split <;> exact hv

/-- Validity of `time_scale` is preserved along any successful run. -/
theorem runOps_valid : ∀ (ops : List Op) (t t' : Time),
    F32.validB t.time_scale = true → runOps ops t = some t' →
    F32.validB t'.time_scale = true := by
  intro ops
  induction ops with
  | nil =>
    intro t t' hv h
    cases h
    exact hv
  | cons op rest ih =>
    intro t t' hv h
    unfold runOps at h
    cases happ : applyOp t op with
    | none => rw [happ] at h; cases h
    | some t₁ =>
      rw [happ] at h
      exact ih t₁ t' (applyOp_valid t t₁ op hv happ) h

/-- C6: in every state reachable from default construction by successful
operations, `time_scale` is finite, not NaN and `≥ 0` (validity is imposed
by `set_time_scale`, the only operation that writes the field; the other
three leave `time_scale` untouched). -/
theorem time_scale_validity :
    (∀ (ops : List Op) (t : Time), runOps ops Time.default = some t →
      F32.validB t.time_scale = true) ∧
    (∀ (t : Time) (d : ℕ), (t.advance_frame d).time_scale = t.time_scale) ∧
    (∀ (t : Time) (d : ℕ), (t.set_fixed_time d).time_scale = t.time_scale) ∧
    (∀ t : Time, t.step_fixed_update.2.time_scale = t.time_scale) := by
  refine ⟨?_, fun t d => rfl, fun t d => rfl, ?_⟩
  · intro ops t h
    exact runOps_valid ops Time.default t rfl h
  · intro t
    unfold Time.step_fixed_update
    split <;> rfl

theorem time_scale_validity_witness :
    F32.validB
      ({ Time.default with time_scale := F32.finite 2 } : Time).time_scale =
      true :=
  time_scale_validity.1 [Op.set_time_scale (F32.finite 2)]
    { Time.default with time_scale := F32.finite 2 } (by rfl)

/-- C7 fails as stated: from default, `advance_frame 2` (two nanoseconds at
scale 1.0) followed by `set_time_scale 2.0` reaches a state whose
`delta_time` is 2 ns while `delta_real_time * time_scale` is 4 ns. -/
theorem delta_scale_sync_cex :
    runOps [Op.advance_frame 2, Op.set_time_scale (F32.finite 2)]
        Time.default = some tC7 ∧
    ¬ tC7.delta_time = mulF32 tC7.delta_real_time tC7.time_scale := by
  constructor
  · rfl
  · decide

/-- Appending one operation to a run composes. -/
theorem runOps_append (l₁ l₂ : List Op) (t : Time) :
    runOps (l₁ ++ l₂) t = (runOps l₁ t).bind (runOps l₂) := by
  induction l₁ generalizing t with
  | nil => simp [runOps]
  | cons op rest ih =>
    simp only [List.cons_append, runOps]
    cases applyOp t op with
    | none => simp
    | some t₁ => simp [ih]

/-- `advance_frame` re-establishes the delta/scale relation. -/
theorem advance_frame_synced (t : Time) (d : ℕ) :
    (t.advance_frame d).delta_time =
      mulF32 (t.advance_frame d).delta_real_time
        (t.advance_frame d).time_scale := rfl

/-- C7 (amended): in every state reachable from default construction in
which no successful `set_time_scale` call occurs after the most recent
`advance_frame` call (or anywhere in the run, when it contains no
`advance_frame`), `delta_time = delta_real_time * time_scale`. -/
theorem delta_scale_sync (ops : List Op)
    (hops : noScaleSinceAdvance ops = true) (t : Time)
    (hrun : runOps ops Time.default = some t) :
    t.delta_time = mulF32 t.delta_real_time t.time_scale := by
  induction ops using List.reverseRecOn generalizing t with
  | nil =>
    cases hrun
    decide
  | append_singleton l op ih =>
    rw [runOps_append] at hrun
    cases hl : runOps l Time.default with
    | none =>
      rw [hl] at hrun
      cases hrun
    | some t₀ =>
      rw [hl] at hrun
      simp only [Option.some_bind, runOps] at hrun
      cases happ : applyOp t₀ op with
      | none => rw [happ] at hrun; cases hrun
      | some t₁ =>
        rw [happ] at hrun
        cases hrun
        have hrevops : noScaleSinceAdvanceRev (op :: l.reverse) = true := by
          have : (l ++ [op]).reverse = op :: l.reverse := by simp
          rw [noScaleSinceAdvance, this] at hops
          exact hops
        cases op with
        | advance_frame d =>
          cases happ
          exact advance_frame_synced t₀ d
        | set_time_scale s =>
          simp [noScaleSinceAdvanceRev] at hrevops
        | set_fixed_time d =>
          have hl' : noScaleSinceAdvance l = true := by
            simpa [noScaleSinceAdvanceRev] using hrevops
          cases happ
          exact ih hl' t₀ hl
        | step_fixed_update =>
          have hl' : noScaleSinceAdvance l = true := by
            simpa [noScaleSinceAdvanceRev] using hrevops
          have hsync := ih hl' t₀ hl
          cases happ
          unfold Time.step_fixed_update
          split <;> exact hsync

theorem delta_scale_sync_witness :
    ({ delta_time := 2, delta_real_time := 2, fixed_time := 16666666,
       frame_number := 1, absolute_real_time := 2, absolute_time := 2,
       time_scale := F32.finite 1, fixed_time_accumulator := 2 } :
        Time).delta_time =
      mulF32
        ({ delta_time := 2, delta_real_time := 2, fixed_time := 16666666,
           frame_number := 1, absolute_real_time := 2, absolute_time := 2,
           time_scale := F32.finite 1, fixed_time_accumulator := 2 } :
            Time).delta_real_time
        ({ delta_time := 2, delta_real_time := 2, fixed_time := 16666666,
           frame_number := 1, absolute_real_time := 2, absolute_time := 2,
           time_scale := F32.finite 1, fixed_time_accumulator := 2 } :
            Time).time_scale :=
  delta_scale_sync [Op.advance_frame 2, Op.step_fixed_update] (by rfl)
    { delta_time := 2, delta_real_time := 2, fixed_time := 16666666,
      frame_number := 1, absolute_real_time := 2, absolute_time := 2,
      time_scale := F32.finite 1, fixed_time_accumulator := 2 } (by rfl)

end GameClock
